import Mathlib

/- Verification development for the authenticated-session core of libsmm-asset
   (src/smm-asset.c, src/smm-asset-curl.c, src/smm-asset.h, src/smm-asset-internal.h).

   Modelling conventions:
   - C strings are Lean String values (in this toolchain a String is a packed
     List Char, so the C string functions strncmp / strstr / pointer offsets are
     modelled by explicit list operations on String.data).
   - The external collaborators are modelled as oracle inputs:
     curl_easy_perform together with the CURLINFO getters is an oracle value of
     type CurlRaw (or none for the paths on which smm_connection_curl_retrieve_url_r
     returns NULL: NULL conn/path or allocation failure); the tidy HTML parse of a
     streamed login page is an oracle HtmlNode; the outcomes of the two nested
     fetches performed by smm_connection_login are oracle CurlRes values, with the
     POST oracle consuming the post body string that the code builds.
   - Heap allocation for strings built with asprintf inside the functions under
     test is modelled as succeeding; allocation failure of the result object is
     covered by the none case of the transport oracle.
   - Fields of struct smm_connection_s that carry no session logic (the curl
     handle and the pthread lock) are omitted. -/

namespace SmmAsset

/-- Model of the C test strncmp (s, pre, strlen pre) == 0 on NUL-terminated
strings: the characters of pre are a leading run of s. -/
def startsWithL : List Char → List Char → Bool
  | [], _ => true
  | _ :: _, [] => false
  | a :: as, b :: bs => a == b && startsWithL as bs

/-- Model of the C test strstr (hay, sub) != NULL: some suffix of hay starts
with sub. -/
def containsSubL (sub : List Char) : List Char → Bool
  | [] => startsWithL sub []
  | c :: t => startsWithL sub (c :: t) || containsSubL sub t

/-- String wrapper for startsWithL. -/
def startsWith (pre s : String) : Bool := startsWithL pre.data s.data

/-- String wrapper for containsSubL. -/
def containsSub (s sub : String) : Bool := containsSubL sub.data s.data

/-- Model of the C pointer offset and copy in asprintf building, s + n. -/
def strDrop (s : String) (n : Nat) : String := ⟨s.data.drop n⟩

/-- String concatenation as performed by asprintf format strings. -/
def strApp (a b : String) : String := ⟨a.data ++ b.data⟩

/-- The smm_connection_status enum of smm-asset.h. -/
inductive ConnState where
  | Unknown
  | Connected
  | HostInvalid
  | NoHostConnection
  | AuthenticationFailure
  | GeneralFailure
deriving DecidableEq, Repr

/-- The session-relevant fields of struct smm_connection_s
(smm-asset-internal.h): host, user, pass, state, csrfmiddlewaretoken. -/
structure Conn where
  host : String
  user : String
  pass : String
  state : ConnState
  csrf : Option String
deriving DecidableEq, Repr

/-- The struct smm_curl_res_s result record (success, httpcode, content_type,
redirect_url); the full_uri field is only used for the request itself and is
not recorded. NULL pointers are none. -/
structure CurlRes where
  success : Bool
  httpcode : Int
  contentType : Option String
  redirectUrl : Option String
deriving DecidableEq, Repr

/-- Oracle for one curl_easy_perform call plus its CURLINFO getters: ok is
whether the CURLcode is CURLE_OK, code is CURLINFO_RESPONSE_CODE, and the two
option fields are what CURLINFO_CONTENT_TYPE / CURLINFO_REDIRECT_URL would
deliver (none when the getter fails or yields NULL). -/
structure CurlRaw where
  ok : Bool
  code : Int
  contentType : Option String
  redirectUrl : Option String
deriving DecidableEq, Repr

/-- The result-population logic of smm_connection_curl_retrieve_url_r
(smm-asset-curl.c lines 148-177): success is set from the CURLcode, and the
switch on httpcode records content_type only for 200 and redirect_url only for
301, 302 and 303. -/
def mkCurlRes (r : CurlRaw) : CurlRes :=
  { success := r.ok
    httpcode := r.code
    contentType := if r.code = 200 then r.contentType else none
    redirectUrl :=
      if r.code = 301 ∨ r.code = 302 ∨ r.code = 303 then r.redirectUrl else none }

/- A node of the tidy HTML document tree: an optional element name
(tidyNodeGetName, none for text nodes), the ordered attribute list
(tidyAttrFirst / tidyAttrNext, each attribute a name and value pair), and the
children. Like the tidy API, which walks children through tidyGetChild and
tidyGetNext, the child sequence is a linked list, here the mutual type
HtmlForest. -/
mutual
inductive HtmlNode where
  | mk (name : Option String) (attrs : List (String × String)) (children : HtmlForest)
inductive HtmlForest where
  | nil
  | cons (n : HtmlNode) (rest : HtmlForest)
end

/-- Element name of a node. -/
def HtmlNode.name : HtmlNode → Option String
  | .mk n _ _ => n

/-- Attribute list of a node. -/
def HtmlNode.attrs : HtmlNode → List (String × String)
  | .mk _ a _ => a

/-- Children of a node. -/
def HtmlNode.children : HtmlNode → HtmlForest
  | .mk _ _ c => c

/-- The attribute loop of extract_csrfmiddlewaretoken (smm-asset-curl.c lines
213-231): walk the attributes in order carrying the res flag; an attribute
named name whose value is csrfmiddlewaretoken sets the flag, an attribute named
value returns its value when the flag is set, anything else is skipped. -/
def scanAttrs : Bool → List (String × String) → Option String
  | _, [] => none
  | flag, (n, v) :: rest =>
    if n = "name" then
      if v = "csrfmiddlewaretoken" then scanAttrs true rest else scanAttrs flag rest
    else if n = "value" then
      if flag then some v else scanAttrs flag rest
    else scanAttrs flag rest

/- The child loop of extract_csrfmiddlewaretoken (smm-asset-curl.c lines
205-239): for each child in order, if it is named input scan its attributes and
return on a hit, otherwise (or on a miss) recurse into the child before moving
to the next sibling. extractNode is the per-child work of one loop iteration
(the attribute scan when the child is named input, then the recursive call into
the child), extractForest is the loop over siblings. The C bool result together
with the token out-parameter is modelled as an Option String. -/
mutual
def extractNode : HtmlNode → Option String
  | .mk nm attrs cs =>
    match (if nm = some "input" then scanAttrs false attrs else none) with
    | some v => some v
    | none => extractForest cs
def extractForest : HtmlForest → Option String
  | .nil => none
  | .cons n rest =>
    match extractNode n with
    | some v => some v
    | none => extractForest rest
end

/-- Model of extract_csrfmiddlewaretoken applied, as in smm_connection_login,
to tidyGetRoot of the parsed document: the root node itself is never an input,
only the subtree below it is walked. -/
def extract_csrfmiddlewaretoken (root : HtmlNode) : Option String :=
  extractForest root.children

/-- Oracle inputs consumed by one call of smm_connection_login: the CurlRes
outcome of its nested GET fetch of /accounts/login/ (none when that fetch
returned NULL), the tidy parse tree of the streamed login page, and the CurlRes
outcome of its nested POST fetch as a function of the post body the code
builds. -/
structure LoginEnv where
  resGet : Option CurlRes
  doc : HtmlNode
  resPost : String → Option CurlRes

/-- The post body built at smm-asset-curl.c lines 270-272:
csrfmiddlewaretoken=TOKEN&username=USER&password=PASS with no escaping. -/
def loginPostBody (token user pass : String) : String :=
  strApp (strApp (strApp (strApp (strApp "csrfmiddlewaretoken=" token) "&username=") user) "&password=") pass

/-- The write-through of the token out-parameter at smm-asset-curl.c line 265:
extract_csrfmiddlewaretoken assigns connection->csrfmiddlewaretoken only on
success, so on a miss any previously cached token is left in place. -/
def tokenUpdate (conn : Conn) (doc : HtmlNode) : Conn :=
  match extract_csrfmiddlewaretoken doc with
  | some t => { conn with csrf := some t }
  | none => conn

/-- Model of smm_connection_login (smm-asset-curl.c lines 245-304). Returns the
updated connection and the C bool result. Because of the tokenUpdate
behaviour, a stale cached token still drives the POST when the page yields no
token. -/
def smm_connection_login (conn : Conn) (env : LoginEnv) : Conn × Bool :=
  match env.resGet with
  | some rg =>
    if rg.success = true ∧ rg.httpcode = 200 then
      let conn1 := tokenUpdate conn env.doc
      match conn1.csrf with
      | some t =>
        match env.resPost (loginPostBody t conn1.user conn1.pass) with
        | some rp =>
          if rp.success = true ∧ rp.httpcode = 302 then
            ({ conn1 with state := ConnState.Connected }, true)
          else
            ({ conn1 with state := ConnState.AuthenticationFailure }, false)
        | none => ({ conn1 with state := ConnState.AuthenticationFailure }, false)
      | none => (conn1, false)
    else (conn, false)
  | none => ({ conn with state := ConnState.NoHostConnection }, false)

/-- Oracle inputs consumed by one call of smm_connection_curl_retrieve_url: raw
gives the CurlRaw outcome of the i-th raw transport attempt (the option none
standing for a NULL result of smm_connection_curl_retrieve_url_r), as a
function of the full uri host ++ path and the post data; login gives the oracle
inputs of the smm_connection_login invocation made while evaluating the result
of attempt i. -/
structure FetchEnv where
  raw : Nat → String → Option String → Option CurlRaw
  login : Nat → LoginEnv

/-- The https upgrade host rewrite of smm-asset-curl.c lines 328-342: strip a
leading http:// if present and prepend https://. -/
def upgradeHost (h : String) : String :=
  if startsWith "http://" h then strApp "https://" (strDrop h 7) else strApp "https://" h

/-- One execution of the redirect-evaluation block inside the while loop of
smm_connection_curl_retrieve_url (smm-asset-curl.c lines 318-363). Returns the
updated connection and the retry flag. -/
def evalOnce (conn : Conn) (r : CurlRes) (env : LoginEnv) : Conn × Bool :=
  if r.success = true ∧ r.httpcode = 302 then
    match r.redirectUrl with
    | some ru =>
      if startsWith "https://" conn.host = false then
        if startsWith "https://" ru then
          ({ conn with host := upgradeHost conn.host }, true)
        else (conn, false)
      else if containsSub ru "accounts/login" then
        smm_connection_login conn env
      else (conn, false)
    | none => (conn, false)
  else (conn, false)

/-- The while loop of smm_connection_curl_retrieve_url (smm-asset-curl.c lines
314-369), driven structurally by fuel = 3 - retries, the number of loop-body
entries still permitted by the retries < 3 bound. The arguments after fuel are
the connection, the current result and the number of raw attempts already
performed; the triple returned is the final connection, result and attempt
count. The login oracle index 2 - fuel is the pre-increment value of retries
for this iteration. -/
def retrieveLoop (env : FetchEnv) (path : String) (postData : Option String) :
    Nat → Conn → Option CurlRes → Nat → Conn × Option CurlRes × Nat
  | 0, conn, res, att => (conn, res, att)
  | fuel + 1, conn, res, att =>
    match res with
    | none => (conn, none, att)
    | some r =>
      let pr := evalOnce conn r (env.login (2 - fuel))
      if pr.2 = true ∧ 0 < fuel then
        retrieveLoop env path postData fuel pr.1
          ((env.raw att (strApp pr.1.host path) postData).map mkCurlRes) (att + 1)
      else (pr.1, some r, att)

/-- Model of smm_connection_curl_retrieve_url (smm-asset-curl.c lines 306-372):
perform the first raw attempt, then run the bounded retry loop. -/
def smm_connection_curl_retrieve_url (env : FetchEnv) (conn : Conn) (path : String)
    (postData : Option String) : Conn × Option CurlRes × Nat :=
  retrieveLoop env path postData 3 conn
    ((env.raw 0 (strApp conn.host path) postData).map mkCurlRes) 1

/-- The connection built by smm_asset_connect (smm-asset.c lines 44-57) before
its constructor login: calloc zeroes the struct, so state is
SMM_CONNECTION_UNKNOWN (enum value 0) and the token is NULL. -/
def freshConn (host user pass : String) : Conn :=
  { host := host, user := user, pass := pass, state := ConnState.Unknown, csrf := none }

/-- Model of smm_asset_connection_get_state (smm-asset.c lines 63-71): a NULL
connection yields SMM_CONNECTION_UNKNOWN, otherwise the state field is read. -/
def smm_asset_connection_get_state : Option Conn → ConnState
  | none => ConnState.Unknown
  | some c => c.state

/-- The public operations on one session, each packaged with the oracle inputs
its execution consumes. -/
inductive Op where
  | connect (host user pass : String) (env : LoginEnv)
  | fetchOp (path : String) (postData : Option String) (env : FetchEnv)
  | loginOp (env : LoginEnv)
  | getState
  | close

/-- Effect of one operation on the (possibly absent) session: connect builds a
fresh connection and runs the constructor login; fetch and login thread the
connection through smm_connection_curl_retrieve_url and smm_connection_login;
get_state reads without mutating; close frees the session. -/
def step : Option Conn → Op → Option Conn
  | _, Op.connect h u p env => some (smm_connection_login (freshConn h u p) env).1
  | some c, Op.fetchOp path pd env => some (smm_connection_curl_retrieve_url env c path pd).1
  | some c, Op.loginOp env => some (smm_connection_login c env).1
  | some c, Op.getState => some c
  | _, Op.close => none
  | none, _ => none

/-- Run a sequence of operations from the no-session start. -/
def runOps (ops : List Op) : Option Conn :=
  ops.foldl step none

/-- A login oracle contains a successful POST response: some post body is
answered with a transport-success result carrying the found redirect code 302
(the condition of smm-asset-curl.c line 275). -/
def lioConnects (env : LoginEnv) : Prop :=
  ∃ pd rp, env.resPost pd = some rp ∧ rp.success = true ∧ rp.httpcode = 302

/-- An operation carries a login oracle that contains a successful POST
response. -/
def opEvidence : Op → Prop
  | Op.connect _ _ _ env => lioConnects env
  | Op.fetchOp _ _ env => ∃ i, lioConnects (env.login i)
  | Op.loginOp env => lioConnects env
  | Op.getState => False
  | Op.close => False

/- Specification-side description (for the token-extraction claim), written
from the spec text of section 4.1: the depth-first pre-order listing of the
nodes of a tree, and of a forest. -/
mutual
def preorderNode : HtmlNode → List HtmlNode
  | .mk nm attrs cs => .mk nm attrs cs :: preorderForest cs
def preorderForest : HtmlForest → List HtmlNode
  | .nil => []
  | .cons n rest => preorderNode n ++ preorderForest rest
end

/-- Specification-side description: the position of the first attribute named
name whose value is csrfmiddlewaretoken. -/
def firstCsrfIdx : List (String × String) → Option Nat
  | [] => none
  | a :: rest =>
    if a.1 = "name" ∧ a.2 = "csrfmiddlewaretoken" then some 0
    else (firstCsrfIdx rest).map (· + 1)

/-- Specification-side description: the value, passed through byte for byte, of
the first attribute named value that occurs after the match flag is set, i.e.
strictly after the first name equals csrfmiddlewaretoken attribute. -/
def specTokenOfAttrs (attrs : List (String × String)) : Option String :=
  match firstCsrfIdx attrs with
  | some k => ((attrs.drop (k + 1)).find? (fun a => decide (a.1 = "value"))).map (fun a => a.2)
  | none => none

/-- Specification-side description: the token a single node yields, if it is an
element named input whose attribute list matches. -/
def specNodeToken (n : HtmlNode) : Option String :=
  if n.name = some "input" then specTokenOfAttrs n.attrs else none

/-- Specification-side description of extraction: the first node in document
pre-order below the root that yields a token wins. -/
def specExtractToken (root : HtmlNode) : Option String :=
  (preorderForest root.children).findSome? specNodeToken

/- Helper lemmas shared by the claim theorems. -/
theorem tokenUpdate_host (c : Conn) (d : HtmlNode) : (tokenUpdate c d).host = c.host := by
  unfold tokenUpdate; split <;> rfl

theorem tokenUpdate_state (c : Conn) (d : HtmlNode) : (tokenUpdate c d).state = c.state := by
  unfold tokenUpdate; split <;> rfl

theorem login_fst_host (c : Conn) (env : LoginEnv) : (smm_connection_login c env).1.host = c.host := by
  unfold smm_connection_login
  split
  · split
    · dsimp only
      split
      · split
        · split <;> simp [tokenUpdate_host]
        · simp [tokenUpdate_host]
      · simp [tokenUpdate_host]
    · rfl
  · rfl

theorem login_connected (c : Conn) (env : LoginEnv)
    (h : (smm_connection_login c env).1.state = ConnState.Connected) :
    c.state = ConnState.Connected ∨ lioConnects env := by
  unfold smm_connection_login at h
  split at h
  next rg hget =>
    split at h
    next hok =>
      dsimp only at h
      split at h
      next t hcsrf =>
        split at h
        next rp hrp =>
          split at h
          next hcond => exact Or.inr ⟨_, rp, hrp, hcond.1, hcond.2⟩
          next => simp at h
        next => simp at h
      next hcsrf =>
        left
        rw [← tokenUpdate_state c env.doc]
        exact h
    next => exact Or.inl h
  next => simp at h

theorem evalOnce_host_secure (c : Conn) (r : CurlRes) (env : LoginEnv)
    (h : startsWith "https://" c.host = true) : (evalOnce c r env).1.host = c.host := by
  unfold evalOnce
  split
  · split
    · rw [h]
      simp only [Bool.true_eq_false, if_false]
      split
      · exact login_fst_host c env
      · rfl
    · rfl
  · rfl

theorem evalOnce_connected (c : Conn) (r : CurlRes) (env : LoginEnv)
    (h : (evalOnce c r env).1.state = ConnState.Connected) :
    c.state = ConnState.Connected ∨ lioConnects env := by
  unfold evalOnce at h
  split at h
  · split at h
    · split at h
      · split at h
        · exact Or.inl h
        · exact Or.inl h
      · split at h
        · exact login_connected c env h
        · exact Or.inl h
    · exact Or.inl h
  · exact Or.inl h

theorem retrieveLoop_att_le (env : FetchEnv) (path : String) (pd : Option String) :
    ∀ fuel conn res att, (retrieveLoop env path pd fuel conn res att).2.2 ≤ att + (fuel - 1) := by
  intro fuel
  induction fuel with
  | zero => intro conn res att; simp [retrieveLoop]
  | succ n ih =>
    intro conn res att
    cases res with
    | none => simp [retrieveLoop]
    | some r =>
      simp only [retrieveLoop]
      split
      next hcond =>
        exact le_trans (ih _ _ (att + 1)) (by omega)
      next => dsimp only; omega

theorem retrieveLoop_host_secure (env : FetchEnv) (path : String) (pd : Option String) :
    ∀ fuel conn res att, startsWith "https://" conn.host = true →
      (retrieveLoop env path pd fuel conn res att).1.host = conn.host := by
  intro fuel
  induction fuel with
  | zero => intro conn res att _; rfl
  | succ n ih =>
    intro conn res att h
    cases res with
    | none => rfl
    | some r =>
      simp only [retrieveLoop]
      split
      next hcond =>
        have hev := evalOnce_host_secure conn r (env.login (2 - n)) h
        have h2 : startsWith "https://" (evalOnce conn r (env.login (2 - n))).1.host = true := by
          rw [hev]; exact h
        rw [ih _ _ (att + 1) h2]
        exact hev
      next => exact evalOnce_host_secure conn r (env.login (2 - n)) h

theorem retrieveLoop_connected (env : FetchEnv) (path : String) (pd : Option String) :
    ∀ fuel conn res att, (retrieveLoop env path pd fuel conn res att).1.state = ConnState.Connected →
      conn.state = ConnState.Connected ∨ ∃ i, lioConnects (env.login i) := by
  intro fuel
  induction fuel with
  | zero => intro conn res att h; exact Or.inl h
  | succ n ih =>
    intro conn res att h
    cases res with
    | none => exact Or.inl h
    | some r =>
      simp only [retrieveLoop] at h
      split at h
      next hcond =>
        rcases ih _ _ (att + 1) h with h1 | h1
        · rcases evalOnce_connected conn r (env.login (2 - n)) h1 with h2 | h2
          · exact Or.inl h2
          · exact Or.inr ⟨2 - n, h2⟩
        · exact Or.inr h1
      next =>
        rcases evalOnce_connected conn r (env.login (2 - n)) h with h2 | h2
        · exact Or.inl h2
        · exact Or.inr ⟨2 - n, h2⟩

theorem scanAttrs_true_eq (l : List (String × String)) :
    scanAttrs true l = (l.find? (fun a => decide (a.1 = "value"))).map (fun a => a.2) := by
  induction l with
  | nil => rfl
  | cons a rest ih =>
    obtain ⟨n, v⟩ := a
    by_cases h1 : n = "name"
    · subst h1
      rw [List.find?_cons_of_neg _ (by simp)]
      unfold scanAttrs
      rw [if_pos rfl]
      split <;> exact ih
    · by_cases h2 : n = "value"
      · subst h2
        rw [List.find?_cons_of_pos _ (by simp)]
        unfold scanAttrs
        rw [if_neg h1, if_pos rfl, if_pos rfl]
        rfl
      · rw [List.find?_cons_of_neg _ (by simp [h2])]
        unfold scanAttrs
        rw [if_neg h1, if_neg h2]
        exact ih

theorem firstCsrfIdx_cons (a : String × String) (rest : List (String × String))
    (h : ¬(a.1 = "name" ∧ a.2 = "csrfmiddlewaretoken")) :
    firstCsrfIdx (a :: rest) = (firstCsrfIdx rest).map (· + 1) := by
  show (if a.1 = "name" ∧ a.2 = "csrfmiddlewaretoken" then some 0
    else (firstCsrfIdx rest).map (· + 1)) = (firstCsrfIdx rest).map (· + 1)
  rw [if_neg h]

theorem specTokenOfAttrs_cons_shift (a : String × String) (rest : List (String × String))
    (h : ¬(a.1 = "name" ∧ a.2 = "csrfmiddlewaretoken")) :
    specTokenOfAttrs (a :: rest) = specTokenOfAttrs rest := by
  unfold specTokenOfAttrs
  rw [firstCsrfIdx_cons a rest h]
  cases hk : firstCsrfIdx rest with
  | none => rfl
  | some k => simp [List.drop_succ_cons]

theorem scanAttrs_false_eq (l : List (String × String)) :
    scanAttrs false l = specTokenOfAttrs l := by
  induction l with
  | nil => rfl
  | cons a rest ih =>
    obtain ⟨n, v⟩ := a
    by_cases h1 : n = "name"
    · by_cases h2 : v = "csrfmiddlewaretoken"
      · subst h1; subst h2
        unfold scanAttrs
        rw [if_pos rfl, if_pos rfl, scanAttrs_true_eq]
        unfold specTokenOfAttrs firstCsrfIdx
        rw [if_pos ⟨rfl, rfl⟩]
        rfl
      · subst h1
        unfold scanAttrs
        rw [if_pos rfl, if_neg h2, ih, specTokenOfAttrs_cons_shift _ _ (by simp [h2])]
    · by_cases h2 : n = "value"
      · subst h2
        unfold scanAttrs
        rw [if_neg h1, if_pos rfl, if_neg (by simp), ih,
          specTokenOfAttrs_cons_shift _ _ (by simp [h1])]
      · unfold scanAttrs
        rw [if_neg h1, if_neg h2, ih, specTokenOfAttrs_cons_shift _ _ (by simp [h1])]

mutual
theorem extractNode_eq (n : HtmlNode) :
    extractNode n = (preorderNode n).findSome? specNodeToken := by
  match n with
  | .mk nm attrs cs =>
    have hs : (if nm = some "input" then scanAttrs false attrs else none)
        = specNodeToken (.mk nm attrs cs) := by
      unfold specNodeToken
      split
      next h => rw [if_pos (by simpa [HtmlNode.name] using h), scanAttrs_false_eq]; rfl
      next h => rw [if_neg (by simpa [HtmlNode.name] using h)]
    unfold extractNode preorderNode
    rw [List.findSome?_cons, ← hs]
    cases hv : (if nm = some "input" then scanAttrs false attrs else none) with
    | some v => simp
    | none => simpa using extractForest_eq cs
theorem extractForest_eq (f : HtmlForest) :
    extractForest f = (preorderForest f).findSome? specNodeToken := by
  match f with
  | .nil => rfl
  | .cons n rest =>
    unfold extractForest preorderForest
    rw [List.findSome?_append, ← extractNode_eq n, ← extractForest_eq rest]
    cases hv : extractNode n with
    | some v => rfl
    | none => simp [Option.or]
end

/- Concrete oracle data reused by witnesses and counterexamples. -/

/-- A login page carrying the hidden csrfmiddlewaretoken input. -/
def tokenDoc : HtmlNode :=
  .mk (some "html") [] (.cons (.mk (some "form") []
    (.cons (.mk (some "input") [("name", "foo"), ("value", "bar")] .nil)
    (.cons (.mk (some "input") [("name", "csrfmiddlewaretoken"), ("value", "XYZ123")] .nil)
    .nil))) .nil)

/-- A login page with no csrfmiddlewaretoken input anywhere. -/
def bareDoc : HtmlNode :=
  .mk (some "html") [] (.cons (.mk (some "body") [] .nil) .nil)

/-- Login oracle on which the Login Procedure always succeeds: GET 200, page
with token, POST answered 302. -/
def happyLoginEnv : LoginEnv :=
  { resGet := some { success := true, httpcode := 200, contentType := some "text/html", redirectUrl := none }
    doc := tokenDoc
    resPost := fun _ => some { success := true, httpcode := 302, contentType := none, redirectUrl := some "https://x/" } }


/-- C5: given that the login GET succeeded with status 200 and a token was
extracted from the page so the login POST is issued, smm_connection_login
returns true and sets state Connected exactly when the POST outcome is a
transport success with status code exactly 302 (the found redirect); any other
POST outcome, a 200 included, yields state AuthenticationFailure and result
false. -/
theorem login_post_found_exact (conn : Conn) (env : LoginEnv) (rg : CurlRes) (t : String)
    (hget : env.resGet = some rg) (hs : rg.success = true) (hc : rg.httpcode = 200)
    (htok : extract_csrfmiddlewaretoken env.doc = some t) :
    smm_connection_login conn env =
      match env.resPost (loginPostBody t conn.user conn.pass) with
      | some rp =>
        if rp.success = true ∧ rp.httpcode = 302 then
          ({ conn with csrf := some t, state := ConnState.Connected }, true)
        else
          ({ conn with csrf := some t, state := ConnState.AuthenticationFailure }, false)
      | none => ({ conn with csrf := some t, state := ConnState.AuthenticationFailure }, false) := by
  unfold smm_connection_login
  rw [hget]
  dsimp only
  rw [if_pos ⟨hs, hc⟩]
  have hcu : tokenUpdate conn env.doc = { conn with csrf := some t } := by
    unfold tokenUpdate; rw [htok]
  rw [hcu]

/-- C5 witness: the theorem applied to a concrete connection and login oracle
whose POST is answered 302. -/
theorem login_post_found_exact_witness :
    smm_connection_login (freshConn "https://x" "u" "p") happyLoginEnv =
      match happyLoginEnv.resPost (loginPostBody "XYZ123" "u" "p") with
      | some rp =>
        if rp.success = true ∧ rp.httpcode = 302 then
          ({ freshConn "https://x" "u" "p" with csrf := some "XYZ123", state := ConnState.Connected }, true)
        else
          ({ freshConn "https://x" "u" "p" with csrf := some "XYZ123", state := ConnState.AuthenticationFailure }, false)
      | none => ({ freshConn "https://x" "u" "p" with csrf := some "XYZ123", state := ConnState.AuthenticationFailure }, false) :=
  login_post_found_exact (freshConn "https://x" "u" "p") happyLoginEnv _ "XYZ123" rfl rfl rfl rfl

/-- C7 (amended): when the login GET succeeded with 200 but the extractor finds
no token in the page and the session holds no previously cached token, login
returns false and the connection, its state field in particular, is left
exactly as it was. -/
theorem login_no_token_unchanged (conn : Conn) (env : LoginEnv) (rg : CurlRes)
    (hget : env.resGet = some rg) (hs : rg.success = true) (hc : rg.httpcode = 200)
    (htok : extract_csrfmiddlewaretoken env.doc = none) (hcs : conn.csrf = none) :
    smm_connection_login conn env = (conn, false) := by
  unfold smm_connection_login
  rw [hget]
  dsimp only
  rw [if_pos ⟨hs, hc⟩]
  have hcu : tokenUpdate conn env.doc = conn := by
    unfold tokenUpdate; rw [htok]
  rw [hcu, hcs]

/-- C7 witness: the amended theorem applied to a fresh session and a page with
no token. -/
theorem login_no_token_unchanged_witness :
    smm_connection_login (freshConn "https://x" "u" "p")
      { resGet := some { success := true, httpcode := 200, contentType := some "text/html", redirectUrl := none }
        doc := bareDoc
        resPost := fun _ => some { success := true, httpcode := 302, contentType := none, redirectUrl := some "https://x/" } } =
      (freshConn "https://x" "u" "p", false) :=
  login_no_token_unchanged _ _ _ rfl rfl rfl rfl rfl

/-- A session that already cached a token in an earlier login. -/
def staleConn : Conn :=
  { host := "https://x", user := "u", pass := "p", state := ConnState.Unknown, csrf := some "STALE" }

/-- Login oracle whose GET succeeds with 200, whose page carries no token, and
whose POST is answered 302. -/
def staleEnv : LoginEnv :=
  { resGet := some { success := true, httpcode := 200, contentType := some "text/html", redirectUrl := none }
    doc := bareDoc
    resPost := fun _ => some { success := true, httpcode := 302, contentType := none, redirectUrl := some "https://x/" } }

/-- C7 counterexample: on a session holding a previously cached token, a login
whose GET returns 200 and whose page yields no token does not return false
with the state untouched, as the claim demands: the stale token drives the
POST, the function returns true and the state moves to Connected. -/
theorem login_no_token_cex :
    extract_csrfmiddlewaretoken staleEnv.doc = none ∧
    staleEnv.resGet = some { success := true, httpcode := 200, contentType := some "text/html", redirectUrl := none } ∧
    smm_connection_login staleConn staleEnv = ({ staleConn with state := ConnState.Connected }, true) ∧
    ¬(smm_connection_login staleConn staleEnv = (staleConn, false)) := by
  refine ⟨rfl, rfl, rfl, by decide⟩

/-- C8 (amended): during login, state NoHostConnection is recorded exactly when
the GET fetch produces no result object at all (a NULL return of the fetch
routine); a transport-level failure instead yields a result object whose
success flag is false, on which login returns false with the state unchanged. -/
theorem login_get_failure_classification (conn : Conn) (env : LoginEnv) :
    (∀ rg : CurlRes, env.resGet = some rg → rg.success = false →
      smm_connection_login conn env = (conn, false)) ∧
    (env.resGet = none →
      smm_connection_login conn env = ({ conn with state := ConnState.NoHostConnection }, false)) := by
  constructor
  · intro rg hget hsf
    unfold smm_connection_login
    rw [hget]
    dsimp only
    rw [if_neg (by simp [hsf])]
  · intro hget
    unfold smm_connection_login
    rw [hget]

/-- Login oracle of a transport failure: curl produced a result object with
success false and response code 0 (no response at all). -/
def transportFailEnv : LoginEnv :=
  { resGet := some { success := false, httpcode := 0, contentType := none, redirectUrl := none }
    doc := bareDoc
    resPost := fun _ => none }

/-- C8 witness: the amended theorem applied to the transport-failure oracle and
to a NULL-result oracle. -/
theorem login_get_failure_classification_witness :
    smm_connection_login (freshConn "http://x" "u" "p") transportFailEnv = (freshConn "http://x" "u" "p", false) ∧
    smm_connection_login (freshConn "http://x" "u" "p") { transportFailEnv with resGet := none } =
      ({ freshConn "http://x" "u" "p" with state := ConnState.NoHostConnection }, false) :=
  ⟨(login_get_failure_classification (freshConn "http://x" "u" "p") transportFailEnv).1 _ rfl rfl,
   (login_get_failure_classification (freshConn "http://x" "u" "p") { transportFailEnv with resGet := none }).2 rfl⟩

/-- C8 counterexample: a transport failure of the login GET (I/O level failure,
no response, modelled by a result object with success false and code 0) does
not set NoHostConnection as the claim demands: the state stays Unknown. -/
theorem login_transport_failure_cex :
    transportFailEnv.resGet = some { success := false, httpcode := 0, contentType := none, redirectUrl := none } ∧
    (smm_connection_login (freshConn "http://x" "u" "p") transportFailEnv).1.state = ConnState.Unknown ∧
    (smm_connection_login (freshConn "http://x" "u" "p") transportFailEnv).2 = false ∧
    ConnState.Unknown ≠ ConnState.NoHostConnection := by
  refine ⟨rfl, rfl, rfl, by decide⟩

/-- C6: token extraction is the depth-first pre-order traversal described by
the spec: the first element node named input, in document order below the
root, for which the attribute scan (set a flag at an attribute named name
valued csrfmiddlewaretoken, then return the first attribute named value seen
with the flag set) yields a value, determines the result, byte for byte;
extraction returns nothing when no such input node exists. -/
theorem extract_token_preorder_spec (root : HtmlNode) :
    extract_csrfmiddlewaretoken root = specExtractToken root :=
  extractForest_eq root.children

/-- C10: smm_asset_connection_get_state is total and read-only: a NULL
connection yields SMM_CONNECTION_UNKNOWN rather than failing, the get_state
operation never mutates the session, and for every connection the result is
determined solely by the state field. -/
theorem get_state_total_readonly :
    smm_asset_connection_get_state none = ConnState.Unknown ∧
    (∀ s : Option Conn, step s Op.getState = s) ∧
    (∀ c1 c2 : Conn, c1.state = c2.state →
      smm_asset_connection_get_state (some c1) = smm_asset_connection_get_state (some c2)) := by
  refine ⟨rfl, ?_, ?_⟩
  · intro s; cases s <;> rfl
  · intro c1 c2 h; exact h

/-- C10 witness: the theorem applied to two concrete sessions agreeing on the
state field only. -/
theorem get_state_total_readonly_witness :
    smm_asset_connection_get_state (some (freshConn "http://x" "u" "p")) =
      smm_asset_connection_get_state (some staleConn) :=
  get_state_total_readonly.2.2 (freshConn "http://x" "u" "p") staleConn rfl

/- Controller helper lemmas. -/

theorem retrieveLoop_step (env : FetchEnv) (path : String) (pd : Option String)
    (fuel : Nat) (conn : Conn) (r : CurlRes) (att : Nat) :
    retrieveLoop env path pd (fuel + 1) conn (some r) att =
      (if (evalOnce conn r (env.login (2 - fuel))).2 = true ∧ 0 < fuel then
        retrieveLoop env path pd fuel (evalOnce conn r (env.login (2 - fuel))).1
          ((env.raw att (strApp (evalOnce conn r (env.login (2 - fuel))).1.host path) pd).map mkCurlRes)
          (att + 1)
      else ((evalOnce conn r (env.login (2 - fuel))).1, some r, att)) := rfl

theorem evalOnce_login_branch (c : Conn) (r : CurlRes) (lenv : LoginEnv) (ru : String)
    (hh : startsWith "https://" c.host = true)
    (hs : r.success = true) (hc : r.httpcode = 302) (hru : r.redirectUrl = some ru)
    (hlg : containsSub ru "accounts/login" = true) :
    evalOnce c r lenv = smm_connection_login c lenv := by
  unfold evalOnce
  rw [if_pos ⟨hs, hc⟩, hru]
  dsimp only
  rw [hh]
  simp only [Bool.true_eq_false, if_false]
  rw [if_pos hlg]

theorem evalOnce_upgrade_branch (c : Conn) (r : CurlRes) (lenv : LoginEnv) (ru : String)
    (hh : startsWith "https://" c.host = false)
    (hs : r.success = true) (hc : r.httpcode = 302) (hru : r.redirectUrl = some ru)
    (hrs : startsWith "https://" ru = true) :
    evalOnce c r lenv = ({ c with host := upgradeHost c.host }, true) := by
  unfold evalOnce
  rw [if_pos ⟨hs, hc⟩, hru]
  dsimp only
  rw [hh]
  rw [if_pos rfl, if_pos hrs]

theorem evalOnce_no_trigger (c : Conn) (r : CurlRes) (lenv : LoginEnv)
    (h : r.success = false ∨ r.httpcode ≠ 302 ∨ r.redirectUrl = none) :
    evalOnce c r lenv = (c, false) := by
  unfold evalOnce
  rcases h with h | h | h
  · rw [if_neg (by simp [h])]
  · rw [if_neg (by intro hcon; exact h hcon.2)]
  · split
    · rw [h]
    · rfl

theorem mkCurlRes_success (r : CurlRaw) : (mkCurlRes r).success = r.ok := rfl

theorem mkCurlRes_code (r : CurlRaw) : (mkCurlRes r).httpcode = r.code := rfl

theorem mkCurlRes_redirect_302 (r : CurlRaw) (hc : r.code = 302) :
    (mkCurlRes r).redirectUrl = r.redirectUrl := by
  unfold mkCurlRes
  dsimp only
  rw [if_pos (Or.inr (Or.inl hc))]

theorem mkCurlRes_no_trigger (r : CurlRaw)
    (h : r.ok = false ∨ r.code ≠ 302 ∨ r.redirectUrl = none) :
    (mkCurlRes r).success = false ∨ (mkCurlRes r).httpcode ≠ 302 ∨ (mkCurlRes r).redirectUrl = none := by
  rcases h with h | h | h
  · exact Or.inl h
  · exact Or.inr (Or.inl h)
  · right; right
    unfold mkCurlRes
    dsimp only
    rw [h]
    split <;> rfl

/-- C1: for every call of smm_connection_curl_retrieve_url, whatever the server
does, at most 3 raw transport attempts of the original request are performed;
and in the scenario in which every attempt succeeds with a 302 redirect whose
target contains the login path and the Login Procedure always succeeds, the
controller stops after exactly 3 attempts and returns the result of the 3rd
attempt even though that result is itself such a redirect. -/
theorem fetch_attempt_bound_exact :
    (∀ (env : FetchEnv) (conn : Conn) (path : String) (pd : Option String),
      (smm_connection_curl_retrieve_url env conn path pd).2.2 ≤ 3) ∧
    (∀ (env : FetchEnv) (conn : Conn) (path : String) (pd : Option String),
      startsWith "https://" conn.host = true →
      (∀ i uri pdata, ∃ r : CurlRaw, env.raw i uri pdata = some r ∧ r.ok = true ∧ r.code = 302 ∧
        ∃ ru, r.redirectUrl = some ru ∧ containsSub ru "accounts/login" = true) →
      (∀ (c : Conn) (i : Nat), (smm_connection_login c (env.login i)).2 = true) →
      (smm_connection_curl_retrieve_url env conn path pd).2.2 = 3 ∧
      (smm_connection_curl_retrieve_url env conn path pd).2.1 =
        (env.raw 2 (strApp conn.host path) pd).map mkCurlRes) := by
  constructor
  · intro env conn path pd
    have hb := retrieveLoop_att_le env path pd 3 conn
      ((env.raw 0 (strApp conn.host path) pd).map mkCurlRes) 1
    unfold smm_connection_curl_retrieve_url
    omega
  · intro env conn path pd hh hraw hlog
    obtain ⟨r0, hr0, hok0, hc0, ru0, hru0, hlg0⟩ := hraw 0 (strApp conn.host path) pd
    have hm0 : evalOnce conn (mkCurlRes r0) (env.login 0) = smm_connection_login conn (env.login 0) :=
      evalOnce_login_branch conn (mkCurlRes r0) (env.login 0) ru0 hh (by rw [mkCurlRes_success, hok0])
        (by rw [mkCurlRes_code, hc0]) (by rw [mkCurlRes_redirect_302 r0 hc0, hru0]) hlg0
    set c1 := (smm_connection_login conn (env.login 0)).1 with hc1def
    have hc1host : c1.host = conn.host := login_fst_host conn (env.login 0)
    have step1 : smm_connection_curl_retrieve_url env conn path pd =
        retrieveLoop env path pd 2 c1 ((env.raw 1 (strApp conn.host path) pd).map mkCurlRes) 2 := by
      unfold smm_connection_curl_retrieve_url
      rw [hr0, Option.map_some', retrieveLoop_step]
      rw [show (2 - 2 : Nat) = 0 from rfl, hm0]
      rw [if_pos ⟨hlog conn 0, by omega⟩, hc1host]
    obtain ⟨r1, hr1, hok1, hc1, ru1, hru1, hlg1⟩ := hraw 1 (strApp conn.host path) pd
    have hm1 : evalOnce c1 (mkCurlRes r1) (env.login 1) = smm_connection_login c1 (env.login 1) :=
      evalOnce_login_branch c1 (mkCurlRes r1) (env.login 1) ru1 (by rw [hc1host]; exact hh)
        (by rw [mkCurlRes_success, hok1]) (by rw [mkCurlRes_code, hc1])
        (by rw [mkCurlRes_redirect_302 r1 hc1, hru1]) hlg1
    set c2 := (smm_connection_login c1 (env.login 1)).1 with hc2def
    have hc2host : c2.host = conn.host := by
      rw [hc2def, login_fst_host c1 (env.login 1), hc1host]
    have step2 : retrieveLoop env path pd 2 c1 ((env.raw 1 (strApp conn.host path) pd).map mkCurlRes) 2 =
        retrieveLoop env path pd 1 c2 ((env.raw 2 (strApp conn.host path) pd).map mkCurlRes) 3 := by
      rw [hr1, Option.map_some', retrieveLoop_step]
      rw [show (2 - 1 : Nat) = 1 from rfl, hm1]
      rw [if_pos ⟨hlog c1 1, by omega⟩, hc2host]
    obtain ⟨r2, hr2, hok2, hc2, ru2, hru2, hlg2⟩ := hraw 2 (strApp conn.host path) pd
    have hm2 : evalOnce c2 (mkCurlRes r2) (env.login 2) = smm_connection_login c2 (env.login 2) :=
      evalOnce_login_branch c2 (mkCurlRes r2) (env.login 2) ru2 (by rw [hc2host]; exact hh)
        (by rw [mkCurlRes_success, hok2]) (by rw [mkCurlRes_code, hc2])
        (by rw [mkCurlRes_redirect_302 r2 hc2, hru2]) hlg2
    have step3 : retrieveLoop env path pd 1 c2 ((env.raw 2 (strApp conn.host path) pd).map mkCurlRes) 3 =
        ((smm_connection_login c2 (env.login 2)).1, some (mkCurlRes r2), 3) := by
      rw [hr2, Option.map_some', retrieveLoop_step]
      rw [show (2 - 0 : Nat) = 2 from rfl, hm2]
      rw [if_neg (by omega)]
    rw [step1, step2, step3, hr2, Option.map_some']
    exact ⟨rfl, rfl⟩


/-- C2 (amended): on a first attempt that succeeds with a 302 carrying a
redirect target that contains the login path segment, when the session host
already uses the secure scheme the controller invokes the Login Procedure: if
login reports success, the original request is reissued exactly once more with
the same path and body against the unchanged host (and, when that second
attempt triggers nothing, its result is returned after 2 attempts); if login
fails, no retry happens and the first redirect result is returned, not a
login-page result. With an insecure host the login branch is unreachable (see
the counterexample), which is the amendment. -/
theorem fetch_relogin_retry (env : FetchEnv) (conn : Conn) (path : String) (pd : Option String)
    (r0 : CurlRaw) (ru : String)
    (hh : startsWith "https://" conn.host = true)
    (hr0 : env.raw 0 (strApp conn.host path) pd = some r0)
    (hok : r0.ok = true) (hcode : r0.code = 302) (hru : r0.redirectUrl = some ru)
    (hlg : containsSub ru "accounts/login" = true) :
    ((smm_connection_login conn (env.login 0)).2 = true →
      ∀ r1 : CurlRaw, env.raw 1 (strApp conn.host path) pd = some r1 →
        r1.ok = false ∨ r1.code ≠ 302 ∨ r1.redirectUrl = none →
        smm_connection_curl_retrieve_url env conn path pd =
          ((smm_connection_login conn (env.login 0)).1, some (mkCurlRes r1), 2)) ∧
    ((smm_connection_login conn (env.login 0)).2 = false →
      smm_connection_curl_retrieve_url env conn path pd =
        ((smm_connection_login conn (env.login 0)).1, some (mkCurlRes r0), 1)) := by
  have hm0 : evalOnce conn (mkCurlRes r0) (env.login 0) = smm_connection_login conn (env.login 0) :=
    evalOnce_login_branch conn (mkCurlRes r0) (env.login 0) ru hh (by rw [mkCurlRes_success, hok])
      (by rw [mkCurlRes_code, hcode]) (by rw [mkCurlRes_redirect_302 r0 hcode, hru]) hlg
  constructor
  · intro htrue r1 hr1 hnt
    have step1 : smm_connection_curl_retrieve_url env conn path pd =
        retrieveLoop env path pd 2 (smm_connection_login conn (env.login 0)).1
          ((env.raw 1 (strApp conn.host path) pd).map mkCurlRes) 2 := by
      unfold smm_connection_curl_retrieve_url
      rw [hr0, Option.map_some', retrieveLoop_step]
      rw [show (2 - 2 : Nat) = 0 from rfl, hm0]
      rw [if_pos ⟨htrue, by omega⟩, login_fst_host conn (env.login 0)]
    have hev1 : evalOnce (smm_connection_login conn (env.login 0)).1 (mkCurlRes r1) (env.login 1) =
        ((smm_connection_login conn (env.login 0)).1, false) :=
      evalOnce_no_trigger _ _ _ (mkCurlRes_no_trigger r1 hnt)
    rw [step1, hr1, Option.map_some', retrieveLoop_step]
    rw [show (2 - 1 : Nat) = 1 from rfl, hev1]
    rw [if_neg (by simp)]
  · intro hfalse
    unfold smm_connection_curl_retrieve_url
    rw [hr0, Option.map_some', retrieveLoop_step]
    rw [show (2 - 2 : Nat) = 0 from rfl, hm0]
    rw [if_neg (by simp [hfalse])]

/-- Fetch oracle for the C2 witness: the first attempt 302-redirects to the
secure login page, the second attempt delivers plain 200 content; login always
succeeds. -/
def relogEnv : FetchEnv :=
  { raw := fun i _ _ =>
      if i = 0 then some { ok := true, code := 302, contentType := none, redirectUrl := some "https://x/accounts/login/?next=/p" }
      else some { ok := true, code := 200, contentType := some "application/json", redirectUrl := none }
    login := fun _ => happyLoginEnv }

/-- C2 witness: the amended theorem applied to the concrete relogin oracle. -/
theorem fetch_relogin_retry_witness :
    smm_connection_curl_retrieve_url relogEnv (freshConn "https://x" "u" "p") "/p" none =
      ((smm_connection_login (freshConn "https://x" "u" "p") (relogEnv.login 0)).1,
        some (mkCurlRes { ok := true, code := 200, contentType := some "application/json", redirectUrl := none }), 2) :=
  (fetch_relogin_retry relogEnv (freshConn "https://x" "u" "p") "/p" none
      { ok := true, code := 302, contentType := none, redirectUrl := some "https://x/accounts/login/?next=/p" }
      "https://x/accounts/login/?next=/p" rfl rfl rfl rfl rfl (by decide)).1
    rfl { ok := true, code := 200, contentType := some "application/json", redirectUrl := none } rfl
    (Or.inr (Or.inl (by decide)))

/-- Fetch oracle of the C2 counterexample: every attempt 302-redirects to an
insecure login URL, and any login invocation would succeed. -/
def insecureLoginRedirectEnv : FetchEnv :=
  { raw := fun _ _ _ => some { ok := true, code := 302, contentType := none, redirectUrl := some "http://x/accounts/login/?next=/p" }
    login := fun _ => happyLoginEnv }

/-- C2 counterexample: with the insecure host http://x, a successful 302 whose
target http://x/accounts/login/?next=/p contains the login segment and to
which the scheme-upgrade rule does not apply (the target is not secure), and a
Login Procedure that always succeeds, the controller neither invokes login nor
retries: one attempt is made and the session is wholly unchanged, while the
claim demands a login invocation followed by one retry. -/
theorem fetch_relogin_insecure_cex :
    containsSub "http://x/accounts/login/?next=/p" "accounts/login" = true ∧
    startsWith "https://" "http://x/accounts/login/?next=/p" = false ∧
    (∀ (c : Conn) (i : Nat), (smm_connection_login c (insecureLoginRedirectEnv.login i)).2 = true) ∧
    (smm_connection_curl_retrieve_url insecureLoginRedirectEnv (freshConn "http://x" "u" "p") "/p" none).2.2 = 1 ∧
    (smm_connection_curl_retrieve_url insecureLoginRedirectEnv (freshConn "http://x" "u" "p") "/p" none).1 =
      freshConn "http://x" "u" "p" := by
  refine ⟨by decide, by decide, fun c i => rfl, rfl, rfl⟩

/-- C3 (amended): the redirect-evaluation block acts only on an attempt that
succeeded with status exactly 302 and a redirect target present; any other
first-attempt outcome, the redirect codes 301 and 303 included, is returned
verbatim after one attempt with no retry — though for 301 and 303 the raw
layer still records the redirect target in the returned result. -/
theorem fetch_only_302_redirect_handling :
    (∀ (env : FetchEnv) (conn : Conn) (path : String) (pd : Option String) (r0 : CurlRaw),
      env.raw 0 (strApp conn.host path) pd = some r0 →
      r0.ok = false ∨ r0.code ≠ 302 ∨ r0.redirectUrl = none →
      smm_connection_curl_retrieve_url env conn path pd = (conn, some (mkCurlRes r0), 1)) ∧
    (∀ r : CurlRaw, r.code = 301 ∨ r.code = 303 → (mkCurlRes r).redirectUrl = r.redirectUrl) := by
  constructor
  · intro env conn path pd r0 hr0 hnt
    unfold smm_connection_curl_retrieve_url
    rw [hr0, Option.map_some', retrieveLoop_step]
    rw [show (2 - 2 : Nat) = 0 from rfl,
      evalOnce_no_trigger conn (mkCurlRes r0) (env.login 0) (mkCurlRes_no_trigger r0 hnt)]
    rw [if_neg (by simp)]
  · intro r h
    unfold mkCurlRes
    dsimp only
    rcases h with h | h
    · rw [if_pos (Or.inl h)]
    · rw [if_pos (Or.inr (Or.inr h))]

/-- C3 witness: the amended theorem applied to a 404 first attempt and to a 301
result record. -/
theorem fetch_only_302_redirect_handling_witness :
    smm_connection_curl_retrieve_url
        { raw := fun _ _ _ => some { ok := false, code := 404, contentType := none, redirectUrl := none },
          login := fun _ => happyLoginEnv }
        (freshConn "https://x" "u" "p") "/p" none =
      (freshConn "https://x" "u" "p",
        some (mkCurlRes { ok := false, code := 404, contentType := none, redirectUrl := none }), 1) ∧
    (mkCurlRes { ok := true, code := 301, contentType := none, redirectUrl := some "https://x/p" }).redirectUrl =
      some "https://x/p" :=
  ⟨fetch_only_302_redirect_handling.1 _ (freshConn "https://x" "u" "p") "/p" none
      { ok := false, code := 404, contentType := none, redirectUrl := none } rfl (Or.inl rfl),
   fetch_only_302_redirect_handling.2 { ok := true, code := 301, contentType := none, redirectUrl := some "https://x/p" }
      (Or.inl rfl)⟩

/-- Fetch oracle for the C3 counterexample: a successful 301 with a secure
redirect target, login always succeeding. -/
def moved301Env : FetchEnv :=
  { raw := fun _ _ _ => some { ok := true, code := 301, contentType := none, redirectUrl := some "https://x/p" }
    login := fun _ => happyLoginEnv }

/-- C3 counterexample: a successful attempt with status 301 and a redirect
target present does not receive the handling the claim promises for 302: with
the insecure host http://x and the secure target the claim implies the
scheme-upgrade treatment (host rewritten to https, retry), but the code
returns the 301 result verbatim after a single attempt with the host
unchanged. -/
theorem fetch_301_not_handled_cex :
    (smm_connection_curl_retrieve_url moved301Env (freshConn "http://x" "u" "p") "/p" none).2.2 = 1 ∧
    (smm_connection_curl_retrieve_url moved301Env (freshConn "http://x" "u" "p") "/p" none).1.host = "http://x" ∧
    (smm_connection_curl_retrieve_url moved301Env (freshConn "http://x" "u" "p") "/p" none).2.1 =
      some { success := true, httpcode := 301, contentType := none, redirectUrl := some "https://x/p" } ∧
    "http://x" ≠ "https://x" := by
  refine ⟨rfl, rfl, rfl, by decide⟩

/-- C4: on a successful 302 attempt with an insecure session host http://x and
a secure redirect target, the host is rewritten to exactly https://x (the
insecure prefix stripped, the secure one prepended) and the original path and
body are retried against the new host as the next raw request; and for every
session host already secure, no fetch ever mutates the host, whatever the
server answers. -/
theorem fetch_scheme_upgrade :
    (∀ (env : FetchEnv) (x path : String) (pd : Option String) (conn : Conn) (r0 : CurlRaw) (ru : String),
      conn.host = strApp "http://" x →
      env.raw 0 (strApp conn.host path) pd = some r0 →
      r0.ok = true → r0.code = 302 → r0.redirectUrl = some ru →
      startsWith "https://" ru = true →
      upgradeHost conn.host = strApp "https://" x ∧
      smm_connection_curl_retrieve_url env conn path pd =
        retrieveLoop env path pd 2 { conn with host := strApp "https://" x }
          ((env.raw 1 (strApp (strApp "https://" x) path) pd).map mkCurlRes) 2) ∧
    (∀ (env : FetchEnv) (conn : Conn) (path : String) (pd : Option String),
      startsWith "https://" conn.host = true →
      (smm_connection_curl_retrieve_url env conn path pd).1.host = conn.host) := by
  constructor
  · intro env x path pd conn r0 ru hhost hr0 hok hcode hru hrs
    have hup : upgradeHost conn.host = strApp "https://" x := by rw [hhost]; exact rfl
    refine ⟨hup, ?_⟩
    have hins : startsWith "https://" conn.host = false := by rw [hhost]; exact rfl
    have hev : evalOnce conn (mkCurlRes r0) (env.login 0) =
        ({ conn with host := upgradeHost conn.host }, true) :=
      evalOnce_upgrade_branch conn (mkCurlRes r0) (env.login 0) ru hins
        (by rw [mkCurlRes_success, hok]) (by rw [mkCurlRes_code, hcode])
        (by rw [mkCurlRes_redirect_302 r0 hcode, hru]) hrs
    unfold smm_connection_curl_retrieve_url
    rw [hr0, Option.map_some', retrieveLoop_step]
    rw [show (2 - 2 : Nat) = 0 from rfl, hev]
    rw [if_pos ⟨rfl, by omega⟩]
    dsimp only
    rw [hup]
  · intro env conn path pd hh
    exact retrieveLoop_host_secure env path pd 3 conn
      ((env.raw 0 (strApp conn.host path) pd).map mkCurlRes) 1 hh

/-- Fetch oracle for the C4 witness: first attempt 302 to the secure mirror,
second attempt plain 200. -/
def upgradeEnv : FetchEnv :=
  { raw := fun i _ _ =>
      if i = 0 then some { ok := true, code := 302, contentType := none, redirectUrl := some "https://x/p" }
      else some { ok := true, code := 200, contentType := some "application/json", redirectUrl := none }
    login := fun _ => happyLoginEnv }

/-- C4 witness: the theorem applied to the host http://x with redirect target
https://x/p, and to an already-secure host. -/
theorem fetch_scheme_upgrade_witness :
    (upgradeHost (freshConn "http://x" "u" "p").host = strApp "https://" "x" ∧
      smm_connection_curl_retrieve_url upgradeEnv (freshConn "http://x" "u" "p") "/p" none =
        retrieveLoop upgradeEnv "/p" none 2 { freshConn "http://x" "u" "p" with host := strApp "https://" "x" }
          ((upgradeEnv.raw 1 (strApp (strApp "https://" "x") "/p") none).map mkCurlRes) 2) ∧
    (smm_connection_curl_retrieve_url upgradeEnv (freshConn "https://y" "u" "p") "/p" none).1.host = "https://y" :=
  ⟨fetch_scheme_upgrade.1 upgradeEnv "x" "/p" none (freshConn "http://x" "u" "p")
      { ok := true, code := 302, contentType := none, redirectUrl := some "https://x/p" } "https://x/p"
      rfl rfl rfl rfl rfl rfl,
   fetch_scheme_upgrade.2 upgradeEnv (freshConn "https://y" "u" "p") "/p" none rfl⟩

/-- Fetch oracle for the C1 witness: every attempt 302-redirects to the secure
login page and login always succeeds. -/
def loopLoginEnv : FetchEnv :=
  { raw := fun _ _ _ => some { ok := true, code := 302, contentType := none, redirectUrl := some "https://x/accounts/login/?next=/p" }
    login := fun _ => happyLoginEnv }

/-- C1 witness: the scenario part of the theorem applied to the concrete
persistently-redirecting oracle. -/
theorem fetch_attempt_bound_exact_witness :
    (smm_connection_curl_retrieve_url loopLoginEnv (freshConn "https://x" "u" "p") "/p" none).2.2 = 3 ∧
    (smm_connection_curl_retrieve_url loopLoginEnv (freshConn "https://x" "u" "p") "/p" none).2.1 =
      (loopLoginEnv.raw 2 (strApp "https://x" "/p") none).map mkCurlRes :=
  fetch_attempt_bound_exact.2 loopLoginEnv (freshConn "https://x" "u" "p") "/p" none rfl
    (fun _ _ _ => ⟨{ ok := true, code := 302, contentType := none, redirectUrl := some "https://x/accounts/login/?next=/p" },
      rfl, rfl, rfl, "https://x/accounts/login/?next=/p", rfl, by decide⟩)
    (fun _ _ => rfl)

theorem fetch_connected (env : FetchEnv) (c : Conn) (path : String) (pd : Option String)
    (h : (smm_connection_curl_retrieve_url env c path pd).1.state = ConnState.Connected) :
    c.state = ConnState.Connected ∨ ∃ i, lioConnects (env.login i) :=
  retrieveLoop_connected env path pd 3 c ((env.raw 0 (strApp c.host path) pd).map mkCurlRes) 1 h

theorem runSteps_connected : ∀ (ops : List Op) (s : Option Conn) (c : Conn),
    ops.foldl step s = some c → c.state = ConnState.Connected →
    (∃ op ∈ ops, opEvidence op) ∨ (∃ c0 : Conn, s = some c0 ∧ c0.state = ConnState.Connected) := by
  intro ops
  induction ops with
  | nil => intro s c h hc; right; exact ⟨c, h, hc⟩
  | cons op rest ih =>
    intro s c h hc
    rcases ih (step s op) c h hc with h1 | ⟨c0, hs, hc0⟩
    · obtain ⟨op2, hmem, hev⟩ := h1
      exact Or.inl ⟨op2, List.mem_cons_of_mem _ hmem, hev⟩
    · cases op with
      | connect hh uu pp lenv =>
        have heq : (smm_connection_login (freshConn hh uu pp) lenv).1 = c0 := by
          cases s <;> exact Option.some.inj hs
        left
        refine ⟨Op.connect hh uu pp lenv, List.mem_cons_self _ _, ?_⟩
        have h2 := login_connected (freshConn hh uu pp) lenv (heq ▸ hc0)
        rcases h2 with h3 | h3
        · exact absurd h3 (by simp [freshConn])
        · exact h3
      | fetchOp path pd fenv =>
        cases s with
        | none => exact absurd hs (by simp [step])
        | some c1 =>
          have heq : (smm_connection_curl_retrieve_url fenv c1 path pd).1 = c0 :=
            Option.some.inj hs
          rcases fetch_connected fenv c1 path pd (heq ▸ hc0) with h3 | ⟨i, h3⟩
          · exact Or.inr ⟨c1, rfl, h3⟩
          · exact Or.inl ⟨Op.fetchOp path pd fenv, List.mem_cons_self _ _, ⟨i, h3⟩⟩
      | loginOp lenv =>
        cases s with
        | none => exact absurd hs (by simp [step])
        | some c1 =>
          have heq : (smm_connection_login c1 lenv).1 = c0 := Option.some.inj hs
          rcases login_connected c1 lenv (heq ▸ hc0) with h3 | h3
          · exact Or.inr ⟨c1, rfl, h3⟩
          · exact Or.inl ⟨Op.loginOp lenv, List.mem_cons_self _ _, h3⟩
      | getState =>
        cases s with
        | none => exact absurd hs (by simp [step])
        | some c1 => exact Or.inr ⟨c1, rfl, (Option.some.inj hs) ▸ hc0⟩
      | close => exact absurd hs (by cases s <;> simp [step])

/-- C9: over every sequence of public operations, a session starts in the
Unknown state, and state Connected holds only when some prior operation ran a
smm_connection_login whose POST fetch was answered with a transport success
carrying the found redirect code 302; no operation fabricates Connected
without such a login response. -/
theorem connected_requires_login_evidence :
    (∀ h u p, (freshConn h u p).state = ConnState.Unknown) ∧
    (∀ (ops : List Op) (c : Conn), runOps ops = some c → c.state = ConnState.Connected →
      ∃ op ∈ ops, opEvidence op) := by
  refine ⟨fun _ _ _ => rfl, ?_⟩
  intro ops c h hc
  rcases runSteps_connected ops none c h hc with h1 | ⟨c0, hs, _⟩
  · exact h1
  · exact absurd hs (by simp)

/-- C9 witness: a one-operation trace whose connect login POST was answered
302 ends Connected, and the theorem locates the operation carrying that
evidence. -/
theorem connected_requires_login_evidence_witness :
    ∃ op ∈ [Op.connect "https://x" "u" "p" happyLoginEnv], opEvidence op :=
  connected_requires_login_evidence.2 [Op.connect "https://x" "u" "p" happyLoginEnv]
    { host := "https://x", user := "u", pass := "p", state := ConnState.Connected, csrf := some "XYZ123" }
    rfl rfl

end SmmAsset
